import Mathlib

/-!
Verification of luna's asynchronous task-coordination core: the reminder
timer manager (`mcp_reminders/server.py`), the tool-use orchestration loop
(`luna/llm.py: chat`), the fact disambiguation workflow
(`luna/llm.py: process_facts_for_saving`, `luna/bot.py`), and the
conversation / reminder persistence layer (`luna/memory.py`).

The Python source is shallowly embedded: SQL rows become structures, the
SQLite tables become Lean lists, the in-memory dicts (`active_timers`,
`pending_facts`) become association lists, timestamps become integers, and
fallible I/O (the HTTP callback transport, Telegram sends) is modelled by
boolean success oracles.  Each definition mirrors one Python function and
keeps its name where possible.
-/

namespace Luna

/-! ## Generic helpers

`sortOn` is a structurally recursive insertion sort standing in for SQL
`ORDER BY`; only the fact that it permutes its input matters to the
properties proved below.
-/

def insertSorted {α : Type} (le : α → α → Bool) (a : α) : List α → List α
  | [] => [a]
  | b :: l => if le a b then a :: b :: l else b :: insertSorted le a l

def sortOn {α : Type} (le : α → α → Bool) : List α → List α
  | [] => []
  | a :: l => insertSorted le a (sortOn le l)

/-! ## Reminder store (`memory.py` / `mcp_reminders/server.py` SQL layer)

A row of the `reminders` table.  `remind_at` (an ISO timestamp in SQLite,
compared lexicographically, i.e. chronologically) is modelled as an
integer instant.
-/

structure ReminderRow where
  id : Nat
  message : String
  remind_at : Int
  sent : Bool
deriving Repr, DecidableEq

/-- Source: `UPDATE reminders SET sent = TRUE WHERE id = ?`
(`mark_reminder_sent` in both `memory.py` and `mcp_reminders/server.py`). -/
def mark_reminder_sent (db : List ReminderRow) (rid : Nat) : List ReminderRow :=
  db.map fun r => if r.id = rid then { r with sent := true } else r

/-- Source: `SELECT id, message, remind_at FROM reminders WHERE sent = FALSE ORDER BY remind_at`
(`get_pending_reminders`). -/
def get_pending_reminders (db : List ReminderRow) : List ReminderRow :=
  sortOn (fun a b => a.remind_at ≤ b.remind_at) (db.filter fun r => !r.sent)

/-- Source: `SELECT id, message, remind_at FROM reminders WHERE remind_at <= ? AND sent = FALSE`
(`memory.get_due_reminders`, evaluated at instant `now`). -/
def get_due_reminders (now : Int) (db : List ReminderRow) : List ReminderRow :=
  db.filter fun r => r.remind_at ≤ now && !r.sent

/-! ## Timer manager (`mcp_reminders/server.py`)

The module-level dict `active_timers : dict[int, asyncio.Task]` is an
association list from reminder id to a task identity; `next_task` supplies
the identity of the next `asyncio.create_task`, and `cancelled_tasks`
records every task on which `.cancel()` has been called.
-/

structure TimerState where
  active_timers : List (Nat × Nat)
  cancelled_tasks : List Nat
  next_task : Nat
deriving Repr, DecidableEq

def TimerState.initial : TimerState := ⟨[], [], 0⟩

/-- Source: `active_timers.get(reminder_id)` / the `reminder_id in active_timers` test. -/
def lookupTimer (s : TimerState) (rid : Nat) : Option Nat :=
  (s.active_timers.find? fun p => p.1 = rid).map (·.2)

/-- Dict update/removal both delete any existing binding for the key. -/
def eraseTimer (m : List (Nat × Nat)) (rid : Nat) : List (Nat × Nat) :=
  m.filter fun p => p.1 ≠ rid

/-- Source: `start_reminder_timer`: cancel the existing timer for this id if any,
then `active_timers[reminder_id] = asyncio.create_task(...)`. -/
def start_reminder_timer (s : TimerState) (rid : Nat) : TimerState :=
  let cancelled :=
    match lookupTimer s rid with
    | some t => t :: s.cancelled_tasks
    | none => s.cancelled_tasks
  { active_timers := (rid, s.next_task) :: eraseTimer s.active_timers rid
    cancelled_tasks := cancelled
    next_task := s.next_task + 1 }

/-- Source: `cancel_reminder_timer`: `task = active_timers.pop(reminder_id, None);
if task: task.cancel()`. -/
def cancel_reminder_timer (s : TimerState) (rid : Nat) : TimerState :=
  match lookupTimer s rid with
  | some t =>
    { s with
      active_timers := eraseTimer s.active_timers rid
      cancelled_tasks := t :: s.cancelled_tasks }
  | none => s

/-- The `finally: active_timers.pop(reminder_id, None)` at the end of
`fire_reminder` (the handle is retired once a delivery attempt finishes,
whether or not the transport call succeeded). -/
def timerPopFinally (s : TimerState) (rid : Nat) : TimerState :=
  { s with active_timers := eraseTimer s.active_timers rid }

/-- States of `active_timers` reachable from process start by the three
operations that touch the map. -/
inductive TimerReachable : TimerState → Prop
  | initial : TimerReachable TimerState.initial
  | start (rid : Nat) {s : TimerState} :
      TimerReachable s → TimerReachable (start_reminder_timer s rid)
  | cancel (rid : Nat) {s : TimerState} :
      TimerReachable s → TimerReachable (cancel_reminder_timer s rid)
  | fireDone (rid : Nat) {s : TimerState} :
      TimerReachable s → TimerReachable (timerPopFinally s rid)

/-- At most one entry of the handle map per reminder id. -/
def TimerState.uniqueIds (s : TimerState) : Prop :=
  (s.active_timers.map Prod.fst).Nodup

/-! ## Whole reminder-server state: the durable store plus the timer map. -/

structure ServerState where
  db : List ReminderRow
  timers : TimerState
deriving Repr, DecidableEq

/-- Source: `fire_reminder`: `try:` post to the callback URL, and on success
`mark_reminder_sent`; any transport exception is caught (logged only);
`finally:` the handle is popped.  `transport_ok` tells whether the HTTP
post succeeded. -/
def fire_reminder (transport_ok : Bool) (rid : Nat) (s : ServerState) : ServerState :=
  { db := if transport_ok then mark_reminder_sent s.db rid else s.db
    timers := timerPopFinally s.timers rid }

/-- What the coroutine started by `schedule_reminder` does with its delay
`remind_at - now`: fire at once when the delay is not positive, otherwise
suspend for the delay and fire then. -/
inductive TimerBehavior
  | fireNow
  | sleepThenFire (delay : Int)
deriving Repr, DecidableEq

/-- Source: `schedule_reminder` (control skeleton): `delay = remind_at - now;
if delay <= 0: fire immediately else: sleep(delay); fire`. -/
def schedule_reminder (now remind_at : Int) : TimerBehavior :=
  if remind_at - now ≤ 0 then .fireNow else .sleepThenFire (remind_at - now)

/-- Source: `restore_pending_reminders`: one `start_reminder_timer` per row of
`get_pending_reminders()`; the started task behaves as `schedule_reminder`
evaluated at restore time `now`. -/
def restore_pending_reminders (now : Int) (db : List ReminderRow) :
    List (Nat × TimerBehavior) :=
  (get_pending_reminders db).map fun r => (r.id, schedule_reminder now r.remind_at)

/-- Source: `restore_pending_reminders`, state view: the loop body
`start_reminder_timer(r["id"], ...)` folded over the pending rows,
updating the handle map. -/
def restore_pending_timers (s : TimerState) (db : List ReminderRow) : TimerState :=
  (get_pending_reminders db).foldl (fun acc r => start_reminder_timer acc r.id) s

/-! ## Contacts table (`memory.py`)

A row of the `contacts` table, keeping the columns the fact workflow
touches (`id`, `name`, `notes`); NULL notes and empty notes coincide in
the code (`row[0] or ""`), so `notes` is a plain string.
-/

structure Contact where
  id : Nat
  name : String
  notes : String
deriving Repr, DecidableEq

/-- ASCII case folding, as applied by SQLite `COLLATE NOCASE`. -/
def asciiLower (s : String) : List Char := s.data.map Char.toLower

/-- SQLite `ORDER BY name` under the default collation: lexicographic
comparison of the code points. -/
def lexLe : List Char → List Char → Bool
  | [], _ => true
  | _ :: _, [] => false
  | a :: as, b :: bs => if a = b then lexLe as bs else decide (a.toNat < b.toNat)

/-- Source: `LIKE '%pat%'`: `pat` occurs contiguously inside the subject. -/
def substringOf (pat : List Char) : List Char → Bool
  | [] => pat.isEmpty
  | c :: rest => pat.isPrefixOf (c :: rest) || substringOf pat rest

/-- Source: `SELECT ... FROM contacts WHERE name LIKE '%query%' COLLATE NOCASE ORDER BY name`
(`search_contacts_by_name`). -/
def search_contacts_by_name (contacts : List Contact) (query : String) :
    List Contact :=
  sortOn (fun a b => lexLe a.name.data b.name.data)
    (contacts.filter fun c => substringOf (asciiLower query) (asciiLower c.name))

/-- The date-stamped line `f"\x7btimestamp\x7d: \x7bnotes\x7d"` appended by
`update_contact_notes`; `today` is `datetime.now().strftime("%Y-%m-%d")`. -/
def dated_entry (today fact : String) : String := today ++ ": " ++ fact

/-- Source: `update_contact_notes(contact_id, notes, append)`: with `append`, read
the existing notes (`row[0] or ""`), build the dated entry, join with a
newline when notes already exist, and write back; returns the success
flag (`rowcount > 0`, and `False` early when the contact is missing). -/
def update_contact_notes (contacts : List Contact) (contact_id : Nat)
    (today : String) (notes : String) (append : Bool) : List Contact × Bool :=
  if append then
    match contacts.find? (fun c => c.id = contact_id) with
    | none => (contacts, false)
    | some c0 =>
      let existing_notes := c0.notes
      let new_entry := dated_entry today notes
      let updated_notes :=
        if existing_notes = "" then new_entry
        else existing_notes ++ "\n" ++ new_entry
      (contacts.map fun c =>
        if c.id = contact_id then { c with notes := updated_notes } else c,
       true)
  else
    (contacts.map fun c => if c.id = contact_id then { c with notes := notes } else c,
     contacts.any fun c => c.id = contact_id)

/-! ## Fact disambiguation workflow (`llm.py`) -/

/-- An element of the `auto_save` list built by `process_facts_for_saving`. -/
structure AutoSaveItem where
  contact_id : Nat
  contact_name : String
  fact : String
deriving Repr, DecidableEq

/-- An element of the `needs_disambiguation` list: the subject as written,
the fact, and the full list of matching contacts. -/
structure DisambigItem where
  contact_name : String
  fact : String
  matchList : List Contact
deriving Repr, DecidableEq

/-- Source: `find_matching_contacts` delegates to `memory.search_contacts_by_name`. -/
def find_matching_contacts (contacts : List Contact) (contact_name : String) :
    List Contact :=
  search_contacts_by_name contacts contact_name

/-- Source: `process_facts_for_saving`: route each extracted `(contact_name, fact)`
pair by its match count — zero matches are dropped, a unique match goes to
`auto_save`, two or more to `needs_disambiguation`. -/
def process_facts_for_saving (contacts : List Contact) :
    List (String × String) → List AutoSaveItem × List DisambigItem
  | [] => ([], [])
  | (contact_name, fact) :: rest =>
    let tail := process_facts_for_saving contacts rest
    match find_matching_contacts contacts contact_name with
    | [] => tail
    | [m] => (⟨m.id, m.name, fact⟩ :: tail.1, tail.2)
    | m :: m2 :: ms => (tail.1, ⟨contact_name, fact, m :: m2 :: ms⟩ :: tail.2)

/-- The auto-save loop in `chat()`: one
`memory.update_contact_notes(item.contact_id, item.fact, append=True)` per
`auto_save` item, in list order. -/
def save_auto_facts (contacts : List Contact) (today : String) :
    List AutoSaveItem → List Contact
  | [] => contacts
  | item :: rest =>
    save_auto_facts
      (update_contact_notes contacts item.contact_id today item.fact true).1
      today rest

/-- N successive `chat()` turns, each extracting one annotation with the
same subject `name` and the next fact of `fs`: every turn routes its
annotation through `process_facts_for_saving` and applies the auto-save
step to the contact table the previous turn produced. -/
def save_fact_rounds (today name : String) (contacts : List Contact) :
    List String → List Contact
  | [] => contacts
  | f :: fs =>
    save_fact_rounds today name
      (save_auto_facts contacts today
        (process_facts_for_saving contacts [(name, f)]).1)
      fs

/-- Six contacts whose names all contain "Anna": more candidates than the
five-button presentation cap. -/
def sixAnnas : List Contact :=
  [⟨1, "Anna Arber", ""⟩, ⟨2, "Anna Berger", ""⟩, ⟨3, "Anna Caspar", ""⟩,
   ⟨4, "Anna Dorn", ""⟩, ⟨5, "Anna Ebner", ""⟩, ⟨6, "Anna Fuchs", ""⟩]

/-! ## `parse_save_facts` (`llm.py`)

The regex `\[SAVE_FACT\|([^|]+)\|([^\]]+)\]` applied by `re.findall` /
`re.sub`, embedded as a left-to-right non-overlapping scanner over the
character list.  Both capture groups are `.strip()`ped, and the cleaned
text is `.strip()`ped.
-/

/-- Python `str.strip()`. -/
def pyStrip (cs : List Char) : List Char :=
  ((cs.dropWhile Char.isWhitespace).reverse.dropWhile Char.isWhitespace).reverse

def saveFactTag : List Char := "[SAVE_FACT|".data

/-- Try the regex at the head of `cs`; on a match, return the two capture
groups and the remainder after the closing bracket. -/
def matchSaveFact (cs : List Char) : Option (String × String × List Char) :=
  if saveFactTag.isPrefixOf cs then
    match (cs.drop saveFactTag.length).dropWhile (fun c => c ≠ '|') with
    | '|' :: r2 =>
      if ((cs.drop saveFactTag.length).takeWhile fun c => c ≠ '|').isEmpty then none
      else
        match r2.dropWhile (fun c => c ≠ ']') with
        | ']' :: r3 =>
          if (r2.takeWhile fun c => c ≠ ']').isEmpty then none
          else
            some (⟨(cs.drop saveFactTag.length).takeWhile fun c => c ≠ '|'⟩,
                  ⟨r2.takeWhile fun c => c ≠ ']'⟩, r3)
        | _ => none
    | _ => none
  else none

/-- The scan underlying both `re.findall` (the extracted pairs) and
`re.sub` (the text with every match deleted): try the pattern at each
position, emit and skip a match, otherwise keep the character.  Recursion
is structural on a fuel that `scanSaveFacts` instantiates with the input
length; `matchSaveFact_length_lt` and `scanSaveFactsAux_fuel_irrel` show
the fuel is always sufficient, so the `0` case is unreachable. -/
def scanSaveFactsAux : Nat → List Char → List Char × List (String × String)
  | _, [] => ([], [])
  | 0, cs => (cs, [])
  | fuel + 1, c :: cs =>
    match matchSaveFact (c :: cs) with
    | some (contact, fact, rest) =>
      let t := scanSaveFactsAux fuel rest
      (t.1, (⟨pyStrip contact.data⟩, ⟨pyStrip fact.data⟩) :: t.2)
    | none =>
      let t := scanSaveFactsAux fuel cs
      (c :: t.1, t.2)

def scanSaveFacts (cs : List Char) : List Char × List (String × String) :=
  scanSaveFactsAux cs.length cs

/-- Source: `parse_save_facts`: the `.strip()`ped cleaned response and the list of
stripped `(contact, fact)` pairs, in match order. -/
def parse_save_facts (response : String) : String × List (String × String) :=
  let t := scanSaveFacts response.data
  (⟨pyStrip t.1⟩, t.2)

/-! ## Conversation log (`memory.py`) -/

/-- Source: `INSERT INTO conversations (role, content) VALUES (?, ?)`: the log is
kept in insertion (chronological) order. -/
def add_conversation (log : List (String × String)) (role content : String) :
    List (String × String) :=
  log ++ [(role, content)]

/-- Source: `SELECT role, content FROM conversations ORDER BY created_at DESC
LIMIT ?` followed by `reversed(rows)` (`get_recent_conversations`). -/
def get_recent_conversations (log : List (String × String)) (limit : Nat) :
    List (String × String) :=
  (log.reverse.take limit).reverse

/-! ## Tool-use orchestration loop (`llm.py: chat`) -/

/-- One model turn as the loop observes it: whether `stop_reason` was
`"tool_use"`, and the concatenated text blocks otherwise. -/
structure LLMResponse where
  tool_use : Bool
  text : String

/-- Source: `max_iterations = 10` in `chat()`. -/
def max_iterations : Nat := 10

/-- The fallback text substituted when the loop exhausts its bound. -/
def apology_text : String :=
  "Entschuldigung, ich hatte Probleme bei der Verarbeitung deiner Anfrage."

/-- The `while iteration < max_iterations` loop of `chat()`, with the
language-model service abstracted as a responder indexed by the number of
calls already made.  Returns the `assistant_message` together with the
number of iterations executed; the fuel-exhausted case is the loop's
`else:` branch substituting the apology. -/
def run_tool_loop (respond : Nat → LLMResponse) : Nat → Nat → String × Nat
  | iteration, 0 => (apology_text, iteration)
  | iteration, fuel + 1 =>
    let r := respond iteration
    if r.tool_use then run_tool_loop respond (iteration + 1) fuel
    else (r.text, iteration + 1)

/-- The mutable state `chat()` reads and writes: the contacts table and
the conversation log. -/
structure ChatState where
  contacts : List Contact
  conversations : List (String × String)
deriving Repr, DecidableEq

/-- Source: `chat()` fetches history with `limit=10`. -/
def chat_history_limit : Nat := 10

/-- Source: `chat(user_message)`: fetch the 10 most recent conversation messages,
run the tool-use loop, strip and route `SAVE_FACT` annotations, apply the
single-match auto-saves, persist both turns to the conversation log, and
return the cleaned text plus the items needing disambiguation (and, for
the proofs below, the iteration count). -/
def chat (respond : List (String × String) → Nat → LLMResponse) (today : String)
    (user_message : String) (st : ChatState) :
    ChatState × String × List DisambigItem × Nat :=
  let history := get_recent_conversations st.conversations chat_history_limit
  let loop_result := run_tool_loop (respond history) 0 max_iterations
  let parsed := parse_save_facts loop_result.1
  let routed := process_facts_for_saving st.contacts parsed.2
  let contacts2 := save_auto_facts st.contacts today routed.1
  let convs2 :=
    add_conversation (add_conversation st.conversations "user" user_message)
      "assistant" parsed.1
  (⟨contacts2, convs2⟩, parsed.1, routed.2, loop_result.2)

/-! ## Disambiguation presentation and resolution (`bot.py`) -/

/-- A value of the module-level dict `pending_facts`, keyed by the 8-hex
correlation token: the fact text, the full match list, and the creation
time. -/
structure PendingFact where
  fact : String
  matchList : List Contact
  timestamp : Int
deriving Repr, DecidableEq

/-- Source: `pending_facts.pop(tok, None)`, lookup half. -/
def lookupPending (pending : List (String × PendingFact)) (tok : String) :
    Option PendingFact :=
  (pending.find? fun p => p.1 = tok).map (·.2)

/-- Source: `pending_facts.pop(tok, None)`, removal half (a no-op when absent). -/
def erasePending (pending : List (String × PendingFact)) (tok : String) :
    List (String × PendingFact) :=
  pending.filter fun p => p.1 ≠ tok

/-- Source: `show_contact_disambiguation`: store the pending fact under a fresh
hash (dict assignment replaces any existing binding) and build one inline
button per contact of `matches[:5]`.  Returns the new map and the button
candidates. -/
def show_contact_disambiguation (pending : List (String × PendingFact))
    (fact_hash : String) (item : DisambigItem) (now : Int) :
    List (String × PendingFact) × List Contact :=
  ((fact_hash, ⟨item.fact, item.matchList, now⟩) :: erasePending pending fact_hash,
   item.matchList.take 5)

/-- The user's choice carried in the callback data `sf:<sel>:<hash>`. -/
inductive Selection
  | cancel
  | contact (contact_id : Nat)

/-- The `answer_callback_query` outcome of `handle_save_fact_callback`. -/
inductive CallbackOutcome
  | cancelled
  | notAvailable
  | saved
  | saveFailed
deriving Repr, DecidableEq

/-- Source: `handle_save_fact_callback` for a well-formed `sf:` payload: cancel
pops the token; otherwise pop it, report "Fakt nicht mehr verfügbar" when
it was absent, and append the fact to the chosen contact's notes when it
was present. -/
def handle_save_fact_callback (contacts : List Contact)
    (pending : List (String × PendingFact)) (today : String)
    (sel : Selection) (fact_hash : String) :
    List Contact × List (String × PendingFact) × CallbackOutcome :=
  match sel with
  | .cancel => (contacts, erasePending pending fact_hash, .cancelled)
  | .contact cid =>
    match lookupPending pending fact_hash with
    | none => (contacts, pending, .notAvailable)
    | some fd =>
      let saved := update_contact_notes contacts cid today fd.fact true
      (saved.1, erasePending pending fact_hash,
       if saved.2 then .saved else .saveFailed)

/-! ## Periodic reminder check (`bot.py: check_reminders`) -/

/-- The `for reminder in due_reminders:` body under the surrounding
`try`: send, then mark sent; the first failing send raises out of the
loop (caught outside), leaving the store as already updated. -/
def process_due_batch (send_ok : Nat → Bool) (db : List ReminderRow) :
    List ReminderRow → List ReminderRow
  | [] => db
  | r :: rest =>
    if send_ok r.id then process_due_batch send_ok (mark_reminder_sent db r.id) rest
    else db

/-- Source: `check_reminders()`: fetch the due reminders and process the batch;
`send_ok` tells whether `bot.send_message` succeeds for a reminder id. -/
def check_reminders (send_ok : Nat → Bool) (now : Int) (db : List ReminderRow) :
    List ReminderRow :=
  process_due_batch send_ok db (get_due_reminders now db)

/-! ## Joined note lines

`notes` is a newline-joined block; `joinLines` relates it to its list of
lines, for stating the append law.
-/

def joinLines : List String → String
  | [] => ""
  | [l] => l
  | l :: l2 :: ls => l ++ "\n" ++ joinLines (l2 :: ls)

end Luna

namespace Luna

/-! ## Properties of the generic helpers -/

theorem insertSorted_perm {α : Type} (le : α → α → Bool) (a : α) (l : List α) :
    (insertSorted le a l).Perm (a :: l) := by
  induction l with
  | nil => simp [insertSorted]
  | cons b t ih =>
    simp only [insertSorted]
    by_cases h : le a b = true
    · simp [h]
    · simp only [h, if_false]
      exact ((ih.cons b).trans (List.Perm.swap a b t))

theorem sortOn_perm {α : Type} (le : α → α → Bool) (l : List α) :
    (sortOn le l).Perm l := by
  induction l with
  | nil => simp [sortOn]
  | cons a t ih =>
    exact (insertSorted_perm le a (sortOn le t)).trans (ih.cons a)

theorem mem_sortOn {α : Type} {le : α → α → Bool} {a : α} {l : List α} :
    a ∈ sortOn le l ↔ a ∈ l :=
  (sortOn_perm le l).mem_iff

theorem matchSaveFact_length_lt {cs : List Char} {nm fct : String} {rest : List Char}
    (h : matchSaveFact cs = some (nm, fct, rest)) : rest.length < cs.length := by
  unfold matchSaveFact at h
  split at h
  case isFalse => exact absurd h (by simp)
  case isTrue hpre =>
    have hlen : saveFactTag.length ≤ cs.length := by
      have := List.IsPrefix.length_le (List.isPrefixOf_iff_prefix.mp hpre)
      simpa using this
    have hdrop : (cs.drop saveFactTag.length).length = cs.length - saveFactTag.length :=
      List.length_drop _ _
    split at h
    case h_2 => exact absurd h (by simp)
    case h_1 r2 heq =>
      have h2 : (r2.length + 1) ≤ (cs.drop saveFactTag.length).length := by
        have hs := (List.dropWhile_sublist
          (l := cs.drop saveFactTag.length) (fun c => c ≠ '|')).length_le
        rw [heq] at hs
        simpa using hs
      split at h
      case isTrue => exact absurd h (by simp)
      case isFalse =>
        split at h
        case h_2 => exact absurd h (by simp)
        case h_1 r3 heq2 =>
          have h3 : (r3.length + 1) ≤ r2.length := by
            have hs := (List.dropWhile_sublist (l := r2) (fun c => c ≠ ']')).length_le
            rw [heq2] at hs
            simpa using hs
          split at h
          case isTrue => exact absurd h (by simp)
          case isFalse =>
            have : rest = r3 := by
              simpa using congrArg (fun o => o.map (fun t => t.2.2)) h.symm
            subst this
            have htag : 0 < saveFactTag.length := by decide
            omega

theorem scanSaveFactsAux_fuel_irrel :
    ∀ (fuel fuel2 : Nat) (cs : List Char), cs.length ≤ fuel → cs.length ≤ fuel2 →
      scanSaveFactsAux fuel cs = scanSaveFactsAux fuel2 cs := by
  intro fuel
  induction fuel with
  | zero =>
    intro fuel2 cs h1 _
    have : cs = [] := List.length_eq_zero.mp (Nat.le_zero.mp h1)
    subst this
    cases fuel2 <;> rfl
  | succ n ih =>
    intro fuel2 cs h1 h2
    match cs with
    | [] => cases fuel2 <;> rfl
    | c :: cs2 =>
      match fuel2 with
      | 0 => exact absurd h2 (by simp)
      | g + 1 =>
        simp only [scanSaveFactsAux]
        cases hm : matchSaveFact (c :: cs2) with
        | some v =>
          obtain ⟨contact, fact, rest⟩ := v
          have hlt := matchSaveFact_length_lt hm
          simp only []
          rw [ih g rest (by simp at h1 hlt ⊢; omega) (by simp at h2 hlt ⊢; omega)]
        | none =>
          simp only []
          rw [ih g cs2 (by simpa using h1) (by simpa using h2)]

/-! ## Shared association-list lemmas (dict semantics) -/

theorem find?_filter_ne {α β : Type} [DecidableEq α] (m : List (α × β)) (k : α) :
    (m.filter fun p => p.1 ≠ k).find? (fun p => p.1 = k) = none := by
  apply List.find?_eq_none.mpr
  intro p hp
  have h := (List.mem_filter.mp hp).2
  simp at h ⊢
  exact h

theorem filter_ne_eq_self {α β : Type} [DecidableEq α] {m : List (α × β)} {k : α}
    (h : m.find? (fun p => p.1 = k) = none) :
    (m.filter fun p => p.1 ≠ k) = m := by
  apply List.filter_eq_self.mpr
  intro p hp
  have h2 := List.find?_eq_none.mp h p hp
  simpa using h2

theorem keys_filter_ne_nodup {α β : Type} [DecidableEq α]
    {m : List (α × β)} (k : α) (h : (m.map Prod.fst).Nodup) :
    (((m.filter fun p => p.1 ≠ k).map Prod.fst)).Nodup :=
  ((List.filter_sublist m).map Prod.fst).nodup h

theorem key_not_mem_keys_filter_ne {α β : Type} [DecidableEq α]
    (m : List (α × β)) (k : α) :
    k ∉ (m.filter fun p => p.1 ≠ k).map Prod.fst := by
  intro hmem
  obtain ⟨p, hp, hk⟩ := List.mem_map.mp hmem
  have h := (List.mem_filter.mp hp).2
  simp at h
  exact h hk

/-! ## Timer-map invariant lemmas -/

theorem lookupTimer_eraseTimer (m : List (Nat × Nat)) (nt : Nat) (c : List Nat)
    (rid : Nat) :
    lookupTimer ⟨eraseTimer m rid, c, nt⟩ rid = none := by
  simp only [lookupTimer, eraseTimer, find?_filter_ne, Option.map_none']

theorem start_reminder_timer_active (s : TimerState) (rid : Nat) :
    (start_reminder_timer s rid).active_timers
      = (rid, s.next_task) :: eraseTimer s.active_timers rid := rfl

theorem timerReachable_uniqueIds {s : TimerState} (h : TimerReachable s) :
    s.uniqueIds := by
  induction h with
  | initial => simp [TimerState.uniqueIds, TimerState.initial]
  | @start rid s h ih =>
    unfold TimerState.uniqueIds at ih ⊢
    rw [start_reminder_timer_active]
    simp only [List.map_cons, List.nodup_cons]
    exact ⟨key_not_mem_keys_filter_ne _ rid, keys_filter_ne_nodup rid ih⟩
  | @cancel rid s h ih =>
    unfold TimerState.uniqueIds at ih ⊢
    unfold cancel_reminder_timer
    cases hl : lookupTimer s rid with
    | some t => exact keys_filter_ne_nodup rid ih
    | none => exact ih
  | @fireDone rid s h ih =>
    unfold TimerState.uniqueIds at ih ⊢
    exact keys_filter_ne_nodup rid ih

/-- Claim C2: the timer map keeps at most one live handle per reminder id:
on every reachable state the map's keys are duplicate-free;
`start_reminder_timer` first cancels the handle already present for the id
(when there is one) and then installs the fresh task under that id; and
`cancel_reminder_timer` removes the handle it cancels from the map. -/
theorem timer_map_at_most_one_handle_per_id (s : TimerState) (rid : Nat)
    (h : TimerReachable s) :
    s.uniqueIds
    ∧ (∀ t, lookupTimer s rid = some t →
        t ∈ (start_reminder_timer s rid).cancelled_tasks)
    ∧ lookupTimer (start_reminder_timer s rid) rid = some s.next_task
    ∧ lookupTimer (cancel_reminder_timer s rid) rid = none := by
  refine ⟨timerReachable_uniqueIds h, ?_, ?_, ?_⟩
  · intro t ht
    show t ∈ (match lookupTimer s rid with
      | some t => t :: s.cancelled_tasks
      | none => s.cancelled_tasks)
    rw [ht]
    exact List.mem_cons_self t _
  · simp [lookupTimer, start_reminder_timer]
  · unfold cancel_reminder_timer
    cases hl : lookupTimer s rid with
    | some t => exact lookupTimer_eraseTimer _ _ _ _
    | none => exact hl

/-- Witness for C2 at a concrete reachable state (one started timer). -/
theorem timer_map_at_most_one_handle_per_id_witness :
    (start_reminder_timer TimerState.initial 5).uniqueIds
    ∧ (∀ t, lookupTimer (start_reminder_timer TimerState.initial 5) 5 = some t →
        t ∈ (start_reminder_timer
              (start_reminder_timer TimerState.initial 5) 5).cancelled_tasks)
    ∧ lookupTimer (start_reminder_timer (start_reminder_timer TimerState.initial 5) 5) 5
        = some (start_reminder_timer TimerState.initial 5).next_task
    ∧ lookupTimer (cancel_reminder_timer (start_reminder_timer TimerState.initial 5) 5) 5
        = none :=
  timer_map_at_most_one_handle_per_id (start_reminder_timer TimerState.initial 5) 5
    (TimerReachable.start 5 TimerReachable.initial)

/-! ## Delivery failure (claim C3) -/

theorem mem_mark_reminder_sent_of_ne {db : List ReminderRow} {r : ReminderRow}
    (hr : r ∈ db) (rid : Nat) (hne : r.id ≠ rid) :
    r ∈ mark_reminder_sent db rid := by
  unfold mark_reminder_sent
  have := List.mem_map_of_mem
    (fun r => if r.id = rid then { r with sent := true } else r) hr
  simpa [hne] using this

theorem mem_get_pending_of_unsent {db : List ReminderRow} {r : ReminderRow}
    (hr : r ∈ db) (hunsent : r.sent = false) :
    r ∈ get_pending_reminders db := by
  unfold get_pending_reminders
  exact mem_sortOn.mpr (List.mem_filter.mpr ⟨hr, by simp [hunsent]⟩)

/-- Claim C3: when the delivery transport call fails, `fire_reminder`
swallows the error and leaves the store untouched (so the reminder's
`sent` flag is still false), removes the reminder's handle from the timer
map, and the reminder is picked up and rescheduled by the next restore
pass; the sent flag is set only by a successful transport call. -/
theorem fire_reminder_failure_at_least_once (s : ServerState) (r : ReminderRow)
    (now : Int) (hr : r ∈ s.db) (hunsent : r.sent = false) :
    (fire_reminder false r.id s).db = s.db
    ∧ lookupTimer (fire_reminder false r.id s).timers r.id = none
    ∧ r ∈ get_pending_reminders (fire_reminder false r.id s).db
    ∧ (r.id, schedule_reminder now r.remind_at) ∈
        restore_pending_reminders now (fire_reminder false r.id s).db
    ∧ { r with sent := true } ∈ (fire_reminder true r.id s).db := by
  refine ⟨rfl, lookupTimer_eraseTimer _ _ _ _, ?_, ?_, ?_⟩
  · exact mem_get_pending_of_unsent hr hunsent
  · exact List.mem_map_of_mem _ (mem_get_pending_of_unsent hr hunsent)
  · show { r with sent := true } ∈ mark_reminder_sent s.db r.id
    unfold mark_reminder_sent
    have := List.mem_map_of_mem
      (fun q => if q.id = r.id then { q with sent := true } else q) hr
    simpa using this

/-- Witness for C3 at a concrete server state. -/
theorem fire_reminder_failure_at_least_once_witness :
    (fire_reminder false 1 ⟨[⟨1, "Zahnarzt", 50, false⟩], TimerState.initial⟩).db
        = [⟨1, "Zahnarzt", 50, false⟩]
    ∧ lookupTimer
        (fire_reminder false 1 ⟨[⟨1, "Zahnarzt", 50, false⟩], TimerState.initial⟩).timers
        1 = none
    ∧ (⟨1, "Zahnarzt", 50, false⟩ : ReminderRow) ∈ get_pending_reminders
        (fire_reminder false 1 ⟨[⟨1, "Zahnarzt", 50, false⟩], TimerState.initial⟩).db
    ∧ (1, schedule_reminder 60 50) ∈ restore_pending_reminders 60
        (fire_reminder false 1 ⟨[⟨1, "Zahnarzt", 50, false⟩], TimerState.initial⟩).db
    ∧ ({ id := 1, message := "Zahnarzt", remind_at := 50, sent := true } : ReminderRow)
        ∈ (fire_reminder true 1 ⟨[⟨1, "Zahnarzt", 50, false⟩], TimerState.initial⟩).db :=
  fire_reminder_failure_at_least_once
    ⟨[⟨1, "Zahnarzt", 50, false⟩], TimerState.initial⟩
    ⟨1, "Zahnarzt", 50, false⟩ 60 (by decide) (by decide)

/-! ## Restore pass (claim C4) -/

theorem find?_filter_ne_other {α β : Type} [DecidableEq α] (m : List (α × β))
    (y rid : α) (h : rid ≠ y) :
    (m.filter fun p => p.1 ≠ y).find? (fun p => p.1 = rid)
      = m.find? (fun p => p.1 = rid) := by
  induction m with
  | nil => rfl
  | cons q t ih =>
    by_cases hq : q.1 = rid
    · have hqy : q.1 ≠ y := by rw [hq]; exact h
      rw [List.filter_cons_of_pos (by simp [hqy]),
        List.find?_cons_of_pos _ (by simp [hq]),
        List.find?_cons_of_pos _ (by simp [hq])]
    · by_cases hy : q.1 = y
      · rw [List.filter_cons_of_neg (by simp [hy]),
          List.find?_cons_of_neg _ (by simp [hq]), ih]
      · rw [List.filter_cons_of_pos (by simp [hy]),
          List.find?_cons_of_neg _ (by simp [hq]),
          List.find?_cons_of_neg _ (by simp [hq]), ih]

theorem lookupTimer_start_other (s : TimerState) (y rid : Nat) (h : rid ≠ y) :
    lookupTimer (start_reminder_timer s y) rid = lookupTimer s rid := by
  unfold lookupTimer
  rw [start_reminder_timer_active]
  rw [List.find?_cons_of_neg _ (by simp; exact Ne.symm h)]
  unfold eraseTimer
  rw [find?_filter_ne_other _ _ _ h]

theorem lookup_foldl_start_not_mem (t : List ReminderRow) :
    ∀ (acc : TimerState) (rid : Nat), rid ∉ t.map (fun r => r.id) →
      lookupTimer (t.foldl (fun a r => start_reminder_timer a r.id) acc) rid
        = lookupTimer acc rid := by
  induction t with
  | nil => intro acc rid _; rfl
  | cons y ys ih =>
    intro acc rid h
    rw [List.foldl_cons,
      ih _ rid (fun hm => h (List.map_cons _ y ys ▸ List.mem_cons_of_mem _ hm)),
      lookupTimer_start_other acc y.id rid
        (fun he => h (List.map_cons _ y ys ▸ he ▸ List.mem_cons_self _ _))]

theorem lookup_restore_isSome (l : List ReminderRow) :
    ∀ (s : TimerState) (rid : Nat), rid ∈ l.map (fun r => r.id) →
      (lookupTimer (l.foldl (fun a r => start_reminder_timer a r.id) s) rid).isSome
        = true := by
  induction l with
  | nil => intro s rid h; simp at h
  | cons x t ih =>
    intro s rid h
    rw [List.foldl_cons]
    by_cases hm : rid ∈ t.map (fun r => r.id)
    · exact ih _ rid hm
    · have hx : rid = x.id := by
        rw [List.map_cons] at h
        rcases List.mem_cons.mp h with h1 | h2
        · exact h1
        · exact absurd h2 hm
      rw [lookup_foldl_start_not_mem t _ rid hm, hx,
        show lookupTimer (start_reminder_timer s x.id) x.id = some s.next_task
          from by simp [lookupTimer, start_reminder_timer]]
      rfl

/-- Claim C4: `restore_pending_reminders` schedules a timer for every
reminder whose `sent` flag is false — the reminder gets both an entry in
the schedule and a live handle in the timer map — and each such reminder
already due at restore time (`remind_at ≤ now`) is fired immediately
rather than suspended. -/
theorem restore_schedules_every_unsent (db : List ReminderRow) (r : ReminderRow)
    (now : Int) (hr : r ∈ db) (hunsent : r.sent = false) :
    (r.id, schedule_reminder now r.remind_at) ∈ restore_pending_reminders now db
    ∧ (∀ s : TimerState,
        (lookupTimer (restore_pending_timers s db) r.id).isSome = true)
    ∧ (r.remind_at ≤ now → schedule_reminder now r.remind_at = .fireNow) := by
  refine ⟨?_, ?_, ?_⟩
  · exact List.mem_map_of_mem _ (mem_get_pending_of_unsent hr hunsent)
  · intro s
    exact lookup_restore_isSome (get_pending_reminders db) s r.id
      (List.mem_map_of_mem (fun q => q.id) (mem_get_pending_of_unsent hr hunsent))
  · intro hdue
    unfold schedule_reminder
    simp only [if_pos (show r.remind_at - now ≤ 0 by omega)]

/-- Witness for C4 with one past-due and one future reminder. -/
theorem restore_schedules_every_unsent_witness :
    ((2 : Nat), schedule_reminder 100 70) ∈ restore_pending_reminders 100
        [⟨1, "früh", 40, true⟩, ⟨2, "spät", 70, false⟩]
    ∧ (∀ s : TimerState,
        (lookupTimer (restore_pending_timers s
          [⟨1, "früh", 40, true⟩, ⟨2, "spät", 70, false⟩]) 2).isSome = true)
    ∧ ((70 : Int) ≤ 100 → schedule_reminder 100 70 = .fireNow) :=
  restore_schedules_every_unsent [⟨1, "früh", 40, true⟩, ⟨2, "spät", 70, false⟩]
    ⟨2, "spät", 70, false⟩ 100 (by decide) (by decide)

/-! ## Zero-match annotations (claim C8) -/

/-- Claim C8: an extracted fact annotation whose subject matches no
contact is dropped: it contributes nothing to either routing list, and
running the auto-save step leaves the contact table exactly as it was. -/
theorem zero_match_annotation_dropped (contacts : List Contact)
    (name fact today : String) (rest : List (String × String))
    (hsearch : search_contacts_by_name contacts name = []) :
    process_facts_for_saving contacts ((name, fact) :: rest)
        = process_facts_for_saving contacts rest
    ∧ process_facts_for_saving contacts [(name, fact)] = ([], [])
    ∧ save_auto_facts contacts today
        (process_facts_for_saving contacts [(name, fact)]).1 = contacts := by
  have h1 : find_matching_contacts contacts name = [] := hsearch
  refine ⟨?_, ?_, ?_⟩
  · simp [process_facts_for_saving, h1]
  · simp [process_facts_for_saving, h1]
  · simp [process_facts_for_saving, h1, save_auto_facts]

/-- Witness for C8: subject "Zzyzx" against a non-empty directory. -/
theorem zero_match_annotation_dropped_witness :
    process_facts_for_saving [⟨1, "Julia Berger", ""⟩]
        (("Zzyzx", "mag Tee") :: [("Zzyzx", "mag Kaffee")])
        = process_facts_for_saving [⟨1, "Julia Berger", ""⟩] [("Zzyzx", "mag Kaffee")]
    ∧ process_facts_for_saving [⟨1, "Julia Berger", ""⟩] [("Zzyzx", "mag Tee")] = ([], [])
    ∧ save_auto_facts [⟨1, "Julia Berger", ""⟩] "2026-10-12"
        (process_facts_for_saving [⟨1, "Julia Berger", ""⟩] [("Zzyzx", "mag Tee")]).1
        = [⟨1, "Julia Berger", ""⟩] :=
  zero_match_annotation_dropped [⟨1, "Julia Berger", ""⟩] "Zzyzx" "mag Tee"
    "2026-10-12" [("Zzyzx", "mag Kaffee")] (by decide)

/-! ## Multi-match annotations (claim C5) -/

/-- Claim C5 as stated is false: with six matching contacts the single
pending item created by `show_contact_disambiguation` stores all six
candidates — only the inline keyboard is truncated to five — so the
stored item's candidate list is not capped at 5 entries. -/
theorem pending_item_candidate_list_uncapped :
    (process_facts_for_saving sixAnnas [("Anna", "mag Tee")]).2.length = 1
    ∧ ∃ item ∈ (process_facts_for_saving sixAnnas [("Anna", "mag Tee")]).2,
        ∃ entry ∈ (show_contact_disambiguation [] "ab12cd34" item 0).1,
          5 < entry.2.matchList.length := by decide

/-- Claim C5 (amended): with two or more matches the annotation mutates no
contact and produces exactly one pending disambiguation item; the stored
item keeps the full candidate list, and the candidate buttons presented to
the user are capped at 5 entries. -/
theorem multi_match_single_pending_item (contacts : List Contact)
    (name fact today tok : String) (pending : List (String × PendingFact))
    (now : Int) (c c2 : Contact) (cs : List Contact)
    (hsearch : search_contacts_by_name contacts name = c :: c2 :: cs) :
    process_facts_for_saving contacts [(name, fact)]
        = ([], [⟨name, fact, c :: c2 :: cs⟩])
    ∧ save_auto_facts contacts today
        (process_facts_for_saving contacts [(name, fact)]).1 = contacts
    ∧ (show_contact_disambiguation pending tok ⟨name, fact, c :: c2 :: cs⟩ now).1
        = (tok, ⟨fact, c :: c2 :: cs, now⟩) :: erasePending pending tok
    ∧ (show_contact_disambiguation pending tok ⟨name, fact, c :: c2 :: cs⟩ now).2.length
        ≤ 5 := by
  have h1 : find_matching_contacts contacts name = c :: c2 :: cs := hsearch
  refine ⟨?_, ?_, rfl, ?_⟩
  · simp [process_facts_for_saving, h1]
  · simp [process_facts_for_saving, h1, save_auto_facts]
  · simp [show_contact_disambiguation]

/-- Witness for the amended C5 with a two-match directory. -/
theorem multi_match_single_pending_item_witness :
    process_facts_for_saving [⟨1, "Julia Berger", ""⟩, ⟨2, "Julia Maier", ""⟩]
        [("Julia", "mag Tee")]
      = ([], [⟨"Julia", "mag Tee", [⟨1, "Julia Berger", ""⟩, ⟨2, "Julia Maier", ""⟩]⟩])
    ∧ save_auto_facts [⟨1, "Julia Berger", ""⟩, ⟨2, "Julia Maier", ""⟩] "2026-10-12"
        (process_facts_for_saving [⟨1, "Julia Berger", ""⟩, ⟨2, "Julia Maier", ""⟩]
          [("Julia", "mag Tee")]).1
      = [⟨1, "Julia Berger", ""⟩, ⟨2, "Julia Maier", ""⟩]
    ∧ (show_contact_disambiguation [] "ab12cd34"
          ⟨"Julia", "mag Tee", [⟨1, "Julia Berger", ""⟩, ⟨2, "Julia Maier", ""⟩]⟩ 0).1
      = ("ab12cd34",
          ⟨"mag Tee", [⟨1, "Julia Berger", ""⟩, ⟨2, "Julia Maier", ""⟩], 0⟩)
          :: erasePending [] "ab12cd34"
    ∧ (show_contact_disambiguation [] "ab12cd34"
          ⟨"Julia", "mag Tee", [⟨1, "Julia Berger", ""⟩, ⟨2, "Julia Maier", ""⟩]⟩ 0).2.length
        ≤ 5 :=
  multi_match_single_pending_item
    [⟨1, "Julia Berger", ""⟩, ⟨2, "Julia Maier", ""⟩] "Julia" "mag Tee"
    "2026-10-12" "ab12cd34" [] 0 ⟨1, "Julia Berger", ""⟩ ⟨2, "Julia Maier", ""⟩ []
    (by decide)

/-! ## Exactly-once resolution (claim C7) -/

theorem lookupPending_erasePending (pending : List (String × PendingFact))
    (tok : String) :
    lookupPending (erasePending pending tok) tok = none := by
  simp only [lookupPending, erasePending, find?_filter_ne, Option.map_none']

/-- Claim C7: resolving a pending disambiguation item is exactly-once: an
absent token yields the "not available" outcome with no mutation of
contacts or of the map; cancellation removes the item; any resolution
leaves the map without the token, so a second resolution with the same
token takes the "not available" branch and mutates nothing. -/
theorem disambiguation_resolution_exactly_once (contacts : List Contact)
    (pending : List (String × PendingFact)) (today fact_hash : String)
    (cid cid2 : Nat) :
    (lookupPending pending fact_hash = none →
        handle_save_fact_callback contacts pending today (.contact cid) fact_hash
          = (contacts, pending, .notAvailable))
    ∧ handle_save_fact_callback contacts pending today .cancel fact_hash
        = (contacts, erasePending pending fact_hash, .cancelled)
    ∧ lookupPending
        (handle_save_fact_callback contacts pending today .cancel fact_hash).2.1
        fact_hash = none
    ∧ lookupPending
        (handle_save_fact_callback contacts pending today (.contact cid) fact_hash).2.1
        fact_hash = none
    ∧ (∀ contacts3,
        handle_save_fact_callback contacts3
          (handle_save_fact_callback contacts pending today (.contact cid) fact_hash).2.1
          today (.contact cid2) fact_hash
        = (contacts3,
           (handle_save_fact_callback contacts pending today (.contact cid) fact_hash).2.1,
           .notAvailable)) := by
  have habsent : ∀ (contacts2 : List Contact) (pending2 : List (String × PendingFact))
      (k : Nat), lookupPending pending2 fact_hash = none →
      handle_save_fact_callback contacts2 pending2 today (.contact k) fact_hash
        = (contacts2, pending2, .notAvailable) := by
    intro contacts2 pending2 k h
    simp [handle_save_fact_callback, h]
  have h4 : lookupPending
      (handle_save_fact_callback contacts pending today (.contact cid) fact_hash).2.1
      fact_hash = none := by
    cases hl : lookupPending pending fact_hash with
    | none => rw [habsent contacts pending cid hl]; exact hl
    | some fd =>
      simp only [handle_save_fact_callback, hl]
      exact lookupPending_erasePending pending fact_hash
  exact ⟨habsent contacts pending cid, rfl,
    lookupPending_erasePending pending fact_hash, h4,
    fun contacts3 => habsent contacts3 _ cid2 h4⟩

/-- Witness for C7 with one pending item and a present token. -/
theorem disambiguation_resolution_exactly_once_witness :
    (lookupPending [("ff00aa11", ⟨"mag Tee", [⟨1, "Julia Berger", ""⟩], 0⟩)] "ff00aa11"
          = none →
        handle_save_fact_callback [⟨1, "Julia Berger", ""⟩]
          [("ff00aa11", ⟨"mag Tee", [⟨1, "Julia Berger", ""⟩], 0⟩)] "2026-10-12"
          (.contact 1) "ff00aa11"
          = ([⟨1, "Julia Berger", ""⟩],
             [("ff00aa11", ⟨"mag Tee", [⟨1, "Julia Berger", ""⟩], 0⟩)], .notAvailable))
    ∧ handle_save_fact_callback [⟨1, "Julia Berger", ""⟩]
        [("ff00aa11", ⟨"mag Tee", [⟨1, "Julia Berger", ""⟩], 0⟩)] "2026-10-12"
        .cancel "ff00aa11"
        = ([⟨1, "Julia Berger", ""⟩],
           erasePending [("ff00aa11", ⟨"mag Tee", [⟨1, "Julia Berger", ""⟩], 0⟩)]
             "ff00aa11", .cancelled)
    ∧ lookupPending
        (handle_save_fact_callback [⟨1, "Julia Berger", ""⟩]
          [("ff00aa11", ⟨"mag Tee", [⟨1, "Julia Berger", ""⟩], 0⟩)] "2026-10-12"
          .cancel "ff00aa11").2.1 "ff00aa11" = none
    ∧ lookupPending
        (handle_save_fact_callback [⟨1, "Julia Berger", ""⟩]
          [("ff00aa11", ⟨"mag Tee", [⟨1, "Julia Berger", ""⟩], 0⟩)] "2026-10-12"
          (.contact 1) "ff00aa11").2.1 "ff00aa11" = none
    ∧ (∀ contacts3,
        handle_save_fact_callback contacts3
          (handle_save_fact_callback [⟨1, "Julia Berger", ""⟩]
            [("ff00aa11", ⟨"mag Tee", [⟨1, "Julia Berger", ""⟩], 0⟩)] "2026-10-12"
            (.contact 1) "ff00aa11").2.1
          "2026-10-12" (.contact 1) "ff00aa11"
        = (contacts3,
           (handle_save_fact_callback [⟨1, "Julia Berger", ""⟩]
             [("ff00aa11", ⟨"mag Tee", [⟨1, "Julia Berger", ""⟩], 0⟩)] "2026-10-12"
             (.contact 1) "ff00aa11").2.1,
           .notAvailable)) :=
  disambiguation_resolution_exactly_once [⟨1, "Julia Berger", ""⟩]
    [("ff00aa11", ⟨"mag Tee", [⟨1, "Julia Berger", ""⟩], 0⟩)] "2026-10-12"
    "ff00aa11" 1 1

/-! ## Conversation readback (claim C9) -/

theorem get_recent_conversations_eq_drop (log : List (String × String)) (n : Nat) :
    get_recent_conversations log n = log.drop (log.length - n) := by
  unfold get_recent_conversations
  have h1 : (List.take (log.length - (log.length - n)) log.reverse).reverse
      = log.drop (log.length - n) := by
    rw [← List.reverse_drop, List.reverse_reverse]
  rw [← h1]
  congr 1
  by_cases h : n ≤ log.length
  · have h2 : log.length - (log.length - n) = n := by omega
    rw [h2]
  · have h2 : log.length - (log.length - n) = log.length := by omega
    rw [h2, List.take_of_length_le (by simp; omega),
      List.take_of_length_le (by simp)]

/-- Claim C9: `chat()` reads context with limit 10, and
`get_recent_conversations` returns at most the 10 most recent stored
messages in chronological order — exactly the final block of the
chronological log, obtained by reversing the reverse-chronological
limited query. -/
theorem recent_conversations_last_ten (log : List (String × String)) :
    chat_history_limit = 10
    ∧ get_recent_conversations log chat_history_limit
        = log.drop (log.length - chat_history_limit)
    ∧ (get_recent_conversations log chat_history_limit).length ≤ chat_history_limit
    ∧ get_recent_conversations log chat_history_limit <:+ log := by
  refine ⟨rfl, get_recent_conversations_eq_drop log chat_history_limit, ?_, ?_⟩
  · rw [get_recent_conversations_eq_drop, List.length_drop]
    have : chat_history_limit = 10 := rfl
    omega
  · rw [get_recent_conversations_eq_drop]
    exact List.drop_suffix _ _

/-! ## Orchestration-loop bound (claim C1) -/

theorem run_tool_loop_all_tool_use (respond : Nat → LLMResponse)
    (h : ∀ n, (respond n).tool_use = true) :
    ∀ (fuel iteration : Nat),
      run_tool_loop respond iteration fuel = (apology_text, iteration + fuel) := by
  intro fuel
  induction fuel with
  | zero => intro iteration; simp [run_tool_loop]
  | succ k ih =>
    intro iteration
    simp only [run_tool_loop, h iteration, if_true, ih (iteration + 1)]
    congr 1
    omega

/-- Claim C1: when the language-model service requests tool use on every
call, the `chat()` loop performs exactly `max_iterations = 10` iterations
and returns the fixed apology string as the final (cleaned) response
text; the loop is a total function of its fuel, so it cannot hang. -/
theorem chat_loop_terminates_with_apology
    (respond : List (String × String) → Nat → LLMResponse)
    (h : ∀ history n, (respond history n).tool_use = true)
    (today user_message : String) (st : ChatState) :
    (chat respond today user_message st).2.1 = apology_text
    ∧ (chat respond today user_message st).2.2.2 = max_iterations := by
  have hparse : parse_save_facts apology_text = (apology_text, []) := by decide
  have hloop := run_tool_loop_all_tool_use
    (respond (get_recent_conversations st.conversations chat_history_limit))
    (h _) max_iterations 0
  unfold chat
  dsimp only
  rw [hloop]
  simp [hparse]

/-- Witness for C1: a responder that always requests tool calls. -/
theorem chat_loop_terminates_with_apology_witness :
    (∀ (history : List (String × String)) (n : Nat),
        ((fun (_ : List (String × String)) (_ : Nat) =>
            (⟨true, "tool"⟩ : LLMResponse)) history n).tool_use = true)
    ∧ (chat (fun _ _ => ⟨true, "tool"⟩) "2026-10-12" "Hallo" ⟨[], []⟩).2.1
        = apology_text
    ∧ (chat (fun _ _ => ⟨true, "tool"⟩) "2026-10-12" "Hallo" ⟨[], []⟩).2.2.2
        = max_iterations :=
  ⟨fun _ _ => rfl,
   (chat_loop_terminates_with_apology (fun _ _ => ⟨true, "tool"⟩)
      (fun _ _ => rfl) "2026-10-12" "Hallo" ⟨[], []⟩).1,
   (chat_loop_terminates_with_apology (fun _ _ => ⟨true, "tool"⟩)
      (fun _ _ => rfl) "2026-10-12" "Hallo" ⟨[], []⟩).2⟩

/-! ## Periodic reminder batch (claim C10) -/

theorem process_due_batch_all_ok (send_ok : Nat → Bool) (d1 : List ReminderRow) :
    ∀ (db rest : List ReminderRow), (∀ b ∈ d1, send_ok b.id = true) →
      process_due_batch send_ok db (d1 ++ rest)
        = process_due_batch send_ok
            (d1.foldl (fun acc b => mark_reminder_sent acc b.id) db) rest := by
  induction d1 with
  | nil => intro db rest _; rfl
  | cons b t ih =>
    intro db rest h
    rw [List.cons_append]
    show (if send_ok b.id then
        process_due_batch send_ok (mark_reminder_sent db b.id) (t ++ rest)
      else db) = _
    rw [if_pos (h b (List.mem_cons_self b t)), List.foldl_cons]
    exact ih _ rest fun x hx => h x (List.mem_cons_of_mem b hx)

theorem mem_foldl_mark_of_ne (d1 : List ReminderRow) :
    ∀ (db : List ReminderRow) (r : ReminderRow), r ∈ db →
      (∀ b ∈ d1, b.id ≠ r.id) →
      r ∈ d1.foldl (fun acc b => mark_reminder_sent acc b.id) db := by
  induction d1 with
  | nil => intro db r hr _; simpa using hr
  | cons b t ih =>
    intro db r hr h
    rw [List.foldl_cons]
    exact ih _ r
      (mem_mark_reminder_sent_of_ne hr b.id
        (fun he => h b (List.mem_cons_self b t) he.symm))
      (fun x hx => h x (List.mem_cons_of_mem b hx))

theorem marked_mem_foldl_mark (d1 : List ReminderRow) :
    ∀ (db : List ReminderRow) (b : ReminderRow), b ∈ d1 → b ∈ db →
      (d1.map (fun r => r.id)).Nodup →
      { b with sent := true }
        ∈ d1.foldl (fun acc b => mark_reminder_sent acc b.id) db := by
  induction d1 with
  | nil => intro db b hb _ _; simp at hb
  | cons x t ih =>
    intro db b hb hdb hnd
    rw [List.map_cons, List.nodup_cons] at hnd
    rw [List.foldl_cons]
    rcases List.mem_cons.mp hb with he | ht
    · subst he
      have hmem : { b with sent := true } ∈ mark_reminder_sent db b.id := by
        unfold mark_reminder_sent
        have h1 := List.mem_map_of_mem
          (fun q => if q.id = b.id then { q with sent := true } else q) hdb
        simpa using h1
      refine mem_foldl_mark_of_ne t _ _ hmem ?_
      intro y hy he2
      exact hnd.1 (he2 ▸ List.mem_map_of_mem (fun r => r.id) hy)
    · have hne : b.id ≠ x.id := by
        intro he
        exact hnd.1 (he ▸ List.mem_map_of_mem (fun r => r.id) ht)
      exact ih _ b ht (mem_mark_reminder_sent_of_ne hdb x.id hne) hnd.2

theorem mem_due_elim {db : List ReminderRow} {r : ReminderRow} {now : Int}
    (h : r ∈ get_due_reminders now db) :
    r ∈ db ∧ r.remind_at ≤ now ∧ r.sent = false := by
  have h1 := List.mem_filter.mp h
  have h2 : r.remind_at ≤ now ∧ r.sent = false := by simpa using h1.2
  exact ⟨h1.1, h2.1, h2.2⟩

/-- Claim C10: in the periodic check, each due reminder is marked sent
only after its send succeeds; the first failing send aborts the batch, so
the failing reminder and every later due reminder keep `sent = false` and
are all fetched as due again by any later check, while the successfully
sent prefix is marked. -/
theorem reminder_batch_failure_aborts (send_ok : Nat → Bool) (now now2 : Int)
    (db d1 d2 : List ReminderRow) (rfail : ReminderRow)
    (hids : (db.map (fun r => r.id)).Nodup)
    (hdue : get_due_reminders now db = d1 ++ rfail :: d2)
    (hok : ∀ b ∈ d1, send_ok b.id = true)
    (hfail : send_ok rfail.id = false)
    (hle : now ≤ now2) :
    check_reminders send_ok now db
        = d1.foldl (fun acc b => mark_reminder_sent acc b.id) db
    ∧ (∀ b ∈ d1, { b with sent := true } ∈ check_reminders send_ok now db)
    ∧ rfail ∈ get_due_reminders now2 (check_reminders send_ok now db)
    ∧ (∀ r ∈ d2, r ∈ get_due_reminders now2 (check_reminders send_ok now db)) := by
  have hdueids : ((get_due_reminders now db).map (fun r => r.id)).Nodup :=
    ((List.filter_sublist db).map (fun r => r.id)).nodup hids
  rw [hdue, List.map_append, List.nodup_append] at hdueids
  have hd1nd : (d1.map (fun r => r.id)).Nodup := hdueids.1
  have hdisj := hdueids.2.2
  have hmain : check_reminders send_ok now db
      = d1.foldl (fun acc b => mark_reminder_sent acc b.id) db := by
    unfold check_reminders
    rw [hdue, process_due_batch_all_ok send_ok d1 db (rfail :: d2) hok]
    show (if send_ok rfail.id then _ else _) = _
    rw [if_neg (by simp [hfail])]
  refine ⟨hmain, ?_, ?_, ?_⟩
  · intro b hb
    rw [hmain]
    have hbdue : b ∈ get_due_reminders now db := by
      rw [hdue]; exact List.mem_append_left _ hb
    exact marked_mem_foldl_mark d1 db b hb (mem_due_elim hbdue).1 hd1nd
  · have hfdue : rfail ∈ get_due_reminders now db := by
      rw [hdue]; exact List.mem_append_right _ (List.mem_cons_self rfail d2)
    obtain ⟨hfdb, hfat, hfsent⟩ := mem_due_elim hfdue
    rw [hmain]
    apply List.mem_filter.mpr
    refine ⟨?_, by simp [hfsent]; omega⟩
    refine mem_foldl_mark_of_ne d1 db rfail hfdb ?_
    intro b hb he
    exact hdisj (List.mem_map_of_mem (fun r => r.id) hb)
      (he ▸ List.mem_cons_self rfail.id _)
  · intro r hr
    have hrdue : r ∈ get_due_reminders now db := by
      rw [hdue]
      exact List.mem_append_right _ (List.mem_cons_of_mem rfail hr)
    obtain ⟨hrdb, hrat, hrsent⟩ := mem_due_elim hrdue
    rw [hmain]
    apply List.mem_filter.mpr
    refine ⟨?_, by simp [hrsent]; omega⟩
    refine mem_foldl_mark_of_ne d1 db r hrdb ?_
    intro b hb he
    exact hdisj (List.mem_map_of_mem (fun r => r.id) hb)
      (he ▸ List.mem_cons_of_mem rfail.id (List.mem_map_of_mem (fun r => r.id) hr))

/-- Witness for C10: three due reminders, the second send fails. -/
theorem reminder_batch_failure_aborts_witness :
    check_reminders (fun i => i != 2) 0
        [⟨1, "a", 0, false⟩, ⟨2, "b", 0, false⟩, ⟨3, "c", 0, false⟩]
        = [(⟨1, "a", 0, false⟩ : ReminderRow)].foldl
            (fun acc b => mark_reminder_sent acc b.id)
            [⟨1, "a", 0, false⟩, ⟨2, "b", 0, false⟩, ⟨3, "c", 0, false⟩]
    ∧ (∀ b ∈ [(⟨1, "a", 0, false⟩ : ReminderRow)],
        { b with sent := true } ∈ check_reminders (fun i => i != 2) 0
          [⟨1, "a", 0, false⟩, ⟨2, "b", 0, false⟩, ⟨3, "c", 0, false⟩])
    ∧ (⟨2, "b", 0, false⟩ : ReminderRow) ∈ get_due_reminders 0
        (check_reminders (fun i => i != 2) 0
          [⟨1, "a", 0, false⟩, ⟨2, "b", 0, false⟩, ⟨3, "c", 0, false⟩])
    ∧ (∀ r ∈ [(⟨3, "c", 0, false⟩ : ReminderRow)],
        r ∈ get_due_reminders 0
          (check_reminders (fun i => i != 2) 0
            [⟨1, "a", 0, false⟩, ⟨2, "b", 0, false⟩, ⟨3, "c", 0, false⟩])) :=
  reminder_batch_failure_aborts (fun i => i != 2) 0 0
    [⟨1, "a", 0, false⟩, ⟨2, "b", 0, false⟩, ⟨3, "c", 0, false⟩]
    [⟨1, "a", 0, false⟩] [⟨3, "c", 0, false⟩] ⟨2, "b", 0, false⟩
    (by decide) (by decide) (by decide) (by decide) (by decide)

/-! ## Single-match append law (claim C6) -/

theorem joinLines_append_singleton (e : String) :
    ∀ (ls : List String), ls ≠ [] →
      joinLines (ls ++ [e]) = joinLines ls ++ "\n" ++ e := by
  intro ls
  induction ls with
  | nil => intro h; exact absurd rfl h
  | cons x t ih =>
    intro _
    rcases t with _ | ⟨y, ys⟩
    · simp [joinLines]
    · rw [List.cons_append]
      show x ++ "\n" ++ joinLines ((y :: ys) ++ [e])
        = joinLines (x :: y :: ys) ++ "\n" ++ e
      rw [ih (by simp)]
      show x ++ "\n" ++ (joinLines (y :: ys) ++ "\n" ++ e)
        = (x ++ "\n" ++ joinLines (y :: ys)) ++ "\n" ++ e
      simp [String.append_assoc]

theorem joinLines_snoc_entry_ne_empty (ls : List String) (today fact : String) :
    joinLines (ls ++ [dated_entry today fact]) ≠ "" := by
  rcases ls with _ | ⟨x, t⟩
  · show dated_entry today fact ≠ ""
    intro hc
    have hlen := congrArg String.length hc
    rw [dated_entry, String.length_append, String.length_append,
      show (": ").length = 2 from rfl,
      show ("" : String).length = 0 from rfl] at hlen
    omega
  · rw [joinLines_append_singleton _ _ (by simp)]
    intro hc
    have hlen := congrArg String.length hc
    rw [String.length_append, String.length_append,
      show ("\n").length = 1 from rfl,
      show ("" : String).length = 0 from rfl] at hlen
    omega

theorem find?_eq_of_nodup_ids {contacts : List Contact} {c : Contact}
    (hmem : c ∈ contacts) (hids : (contacts.map (fun d => d.id)).Nodup) :
    contacts.find? (fun d => d.id = c.id) = some c := by
  induction contacts with
  | nil => simp at hmem
  | cons d rest ih =>
    rw [List.map_cons, List.nodup_cons] at hids
    rcases List.mem_cons.mp hmem with he | hm
    · subst he
      exact List.find?_cons_of_pos _ (by simp)
    · have hne : ¬ d.id = c.id := by
        intro he
        exact hids.1 (he ▸ List.mem_map_of_mem (fun x => x.id) hm)
      rw [List.find?_cons_of_neg _ (by simp [hne])]
      exact ih hm hids.2

theorem search_singleton_filter {contacts : List Contact} {name : String}
    {c : Contact} (h : search_contacts_by_name contacts name = [c]) :
    contacts.filter (fun d => substringOf (asciiLower name) (asciiLower d.name))
      = [c] := by
  have hperm := sortOn_perm (fun a b => lexLe a.name.data b.name.data)
    (contacts.filter fun d => substringOf (asciiLower name) (asciiLower d.name))
  unfold search_contacts_by_name at h
  rw [h] at hperm
  exact List.perm_singleton.mp hperm.symm

theorem mem_of_search_singleton {contacts : List Contact} {name : String}
    {c : Contact} (h : search_contacts_by_name contacts name = [c]) :
    c ∈ contacts := by
  have hf := search_singleton_filter h
  have hmem : c ∈ contacts.filter
      (fun d => substringOf (asciiLower name) (asciiLower d.name)) := by
    rw [hf]; exact List.mem_singleton_self c
  exact (List.mem_filter.mp hmem).1

theorem map_update_ids (contacts : List Contact) (cid : Nat) (newNotes : String) :
    ((contacts.map fun d => if d.id = cid then { d with notes := newNotes } else d).map
        (fun d => d.id))
      = contacts.map (fun d => d.id) := by
  rw [List.map_map]
  apply List.map_congr_left
  intro d hd
  by_cases h : d.id = cid <;> simp [h]

theorem search_map_update {contacts : List Contact} {name : String} {c : Contact}
    (hsearch : search_contacts_by_name contacts name = [c]) (newNotes : String) :
    search_contacts_by_name
        (contacts.map fun d => if d.id = c.id then { d with notes := newNotes } else d)
        name
      = [{ c with notes := newNotes }] := by
  have hfilter := search_singleton_filter hsearch
  unfold search_contacts_by_name
  rw [List.filter_map]
  have hcomp : List.filter
      ((fun d => substringOf (asciiLower name) (asciiLower d.name)) ∘
        fun d => if d.id = c.id then { d with notes := newNotes } else d) contacts
      = List.filter (fun d => substringOf (asciiLower name) (asciiLower d.name))
          contacts := by
    apply List.filter_congr
    intro d hd
    by_cases h : d.id = c.id <;> simp [h]
  rw [hcomp, hfilter]
  simp [sortOn, insertSorted]

theorem save_single_fact_step (contacts : List Contact) (c : Contact)
    (name today f : String) (ls : List String)
    (hids : (contacts.map (fun d => d.id)).Nodup)
    (hsearch : search_contacts_by_name contacts name = [c])
    (hnotes : c.notes = joinLines ls)
    (hls : ls = [] ∨ joinLines ls ≠ "") :
    save_auto_facts contacts today
        (process_facts_for_saving contacts [(name, f)]).1
      = contacts.map (fun d => if d.id = c.id
          then { d with notes := joinLines (ls ++ [dated_entry today f]) }
          else d) := by
  have h1 : find_matching_contacts contacts name = [c] := hsearch
  have hproc : (process_facts_for_saving contacts [(name, f)]).1
      = [⟨c.id, c.name, f⟩] := by
    simp [process_facts_for_saving, h1]
  rw [hproc]
  have hcmem := mem_of_search_singleton hsearch
  have heq : (if c.notes = "" then dated_entry today f
      else c.notes ++ "\n" ++ dated_entry today f)
      = joinLines (ls ++ [dated_entry today f]) := by
    rcases hls with hnil | hne
    · subst hnil
      rw [hnotes]
      simp [joinLines]
    · have hlsne : ls ≠ [] := by
        intro hcontra
        exact hne (by subst hcontra; rfl)
      rw [hnotes, if_neg hne, joinLines_append_singleton _ _ hlsne]
  show (update_contact_notes contacts c.id today f true).1 = _
  simp only [update_contact_notes, if_pos, find?_eq_of_nodup_ids hcmem hids, heq]

/-- Claim C6: when an annotation subject matches exactly one contact
(case-insensitive substring match on the name), the fact is appended to
the notes of that contact as one new date-stamped line, preserving all
existing lines and every other contact; N successive single-match calls
append exactly N dated entries in call order. -/
theorem single_match_append_law (fs : List String) :
    ∀ (contacts : List Contact) (c : Contact) (name today : String)
      (ls : List String),
      (contacts.map (fun d => d.id)).Nodup →
      search_contacts_by_name contacts name = [c] →
      c.notes = joinLines ls →
      ls = [] ∨ joinLines ls ≠ "" →
      save_fact_rounds today name contacts fs
        = contacts.map (fun d => if d.id = c.id
            then { d with notes := joinLines (ls ++ fs.map (dated_entry today)) }
            else d) := by
  induction fs with
  | nil =>
    intro contacts c name today ls hids hsearch hnotes hls
    simp only [List.map_nil, List.append_nil, save_fact_rounds]
    have hcmem := mem_of_search_singleton hsearch
    symm
    refine (List.map_congr_left ?_).trans (List.map_id contacts)
    intro d hd
    by_cases h : d.id = c.id
    · have hdc : d = c := List.inj_on_of_nodup_map hids hd hcmem h
      subst hdc
      rw [if_pos h, ← hnotes]
      rfl
    · rw [if_neg h]
      rfl
  | cons f rest ih =>
    intro contacts c name today ls hids hsearch hnotes hls
    show save_fact_rounds today name
        (save_auto_facts contacts today
          (process_facts_for_saving contacts [(name, f)]).1) rest = _
    rw [save_single_fact_step contacts c name today f ls hids hsearch hnotes hls]
    rw [ih (contacts.map fun d => if d.id = c.id
          then { d with notes := joinLines (ls ++ [dated_entry today f]) } else d)
        { c with notes := joinLines (ls ++ [dated_entry today f]) } name today
        (ls ++ [dated_entry today f])
        (by rw [map_update_ids]; exact hids)
        (search_map_update hsearch _)
        rfl
        (Or.inr (joinLines_snoc_entry_ne_empty ls today f))]
    rw [List.map_map]
    apply List.map_congr_left
    intro d hd
    by_cases h : d.id = c.id <;> simp [h, List.append_assoc]

/-- Witness for C6: two facts appended in order to the sole match. -/
theorem single_match_append_law_witness :
    search_contacts_by_name [⟨1, "Julia Berger", ""⟩] "Julia"
      = [⟨1, "Julia Berger", ""⟩]
    ∧ save_fact_rounds "2026-10-12" "Julia" [⟨1, "Julia Berger", ""⟩]
        ["mag Tee", "hat im Juni Geburtstag"]
      = [(⟨1, "Julia Berger", ""⟩ : Contact)].map (fun d => if d.id = 1
          then { d with notes := joinLines ([] ++
              List.map (dated_entry "2026-10-12")
                ["mag Tee", "hat im Juni Geburtstag"]) }
          else d) :=
  ⟨by decide,
   single_match_append_law ["mag Tee", "hat im Juni Geburtstag"]
     [⟨1, "Julia Berger", ""⟩] ⟨1, "Julia Berger", ""⟩ "Julia" "2026-10-12" []
     (by decide) (by decide) rfl (Or.inl rfl)⟩

end Luna
